import Mathlib

/-
Shallow embedding of the template-matching and response-generation core of
the col-customer repository:
  - src/services/templateRetriever.ts (TemplateRetriever)
  - src/services/zhipuAI.ts (ZhipuAIService)
Strings are modelled as lists of characters; JS lowercasing is modelled at
the ASCII level (CJK characters are unchanged, which agrees with JS there).
The external language-model oracle is non-deterministic, so its replies are
parameters of the embedded functions; everything the TypeScript code itself
computes is translated directly.
-/

namespace ColCustomer

/- The rational operations of the standard library are irreducible by
default; concrete score evaluations in the witnesses below go through the
kernel, which needs to unfold them. -/
attribute [local semireducible] Rat.add Rat.mul Rat.inv Rat.sub

/-- Strings of the TypeScript source, modelled as lists of characters. -/
abbrev Str := List Char

/-- JS String.prototype.toLowerCase, modelled on ASCII letters (other
characters, CJK included, are unchanged). -/
def toLower (s : Str) : Str := s.map Char.toLower

/-- The whitespace class of the JS regexes in the source (the common members
of the JS class). -/
def isSpaceChar (c : Char) : Bool :=
  c = ' ' || c = '\t' || c = '\n' || c = '\r' || c = '\x0b' || c = '\x0c'

/-- A word character of the JS regex word class: ASCII letters, digits and
the underscore. -/
def isWordChar (c : Char) : Bool := c.isAlphanum || c = '_'

/-- A CJK character in the range 4e00 to 9fa5, kept by extractKeywords. -/
def isCJK (c : Char) : Bool :=
  decide (0x4e00 ≤ c.toNat) && decide (c.toNat ≤ 0x9fa5)

/-- Auxiliary scanner for splitRuns: acc holds the current run, reversed. -/
def splitRunsAux (sep : Char → Bool) : List Char → Str → List Str
  | [], acc => if acc.isEmpty then [] else [acc.reverse]
  | c :: cs, acc =>
    if sep c then
      if acc.isEmpty then splitRunsAux sep cs []
      else acc.reverse :: splitRunsAux sep cs []
    else splitRunsAux sep cs (c :: acc)

/-- The maximal runs of characters not satisfying sep. This models a JS
split on a one-or-more separator regex: JS additionally keeps an empty
boundary token when the string starts or ends with separators, but every
consumer in the source filters tokens by length greater than 2, so the
empty tokens never matter. -/
def splitRuns (sep : Char → Bool) (s : Str) : List Str := splitRunsAux sep s []

/-- Auxiliary for dedupFirst: seen holds the values already emitted. -/
def dedupFirstAux [DecidableEq α] (seen : List α) : List α → List α
  | [] => []
  | x :: xs =>
    if x ∈ seen then dedupFirstAux seen xs
    else x :: dedupFirstAux (x :: seen) xs

/-- Deduplication keeping the first occurrence of each value, the iteration
order a JS Set built from an array gives. -/
def dedupFirst [DecidableEq α] (l : List α) : List α := dedupFirstAux [] l

/-- The replace step of extractKeywords: every character that is not a word
character, whitespace or CJK becomes a space. -/
def replaceSpecial (s : Str) : Str :=
  s.map (fun c => if isWordChar c || isSpaceChar c || isCJK c then c else ' ')

/-- TemplateRetriever.extractKeywords: lowercase, replace special characters
by spaces, split on whitespace, keep words longer than 2, deduplicate. -/
def extractKeywords (text : Str) : List Str :=
  dedupFirst
    ((splitRuns isSpaceChar (replaceSpecial (toLower text))).filter
      (fun w => decide (2 < w.length)))

/-- A response template of templateRetriever.ts; languages is the mapping
from language code to template text, as an association list. -/
structure Template where
  id : Str
  category : Str
  scenario : Str
  keywords : List Str
  languages : List (Str × Str)
deriving DecidableEq

/-- The fields of ProcessedEmail that the retriever and the composer read:
the sender address, the subject and the cleaned body text. -/
structure ProcessedEmail where
  fromAddress : Str
  subject : Str
  text : Str
deriving DecidableEq

/-- A scored candidate, as returned by findBestMatches. -/
structure TemplateMatch where
  template : Template
  score : ℚ
  matchedKeywords : List Str
deriving DecidableEq

/-- JS String.prototype.includes: the needle occurs contiguously in the hay
(true for the empty needle, as in JS). -/
def isSubstring (needle hay : Str) : Bool := decide (needle <:+: hay)

/-- The distinct category names in first-occurrence order: the key iteration
order of the category index, a JS Map filled in corpus order. -/
def categoryKeys (ts : List Template) : List Str :=
  dedupFirst (ts.map (fun t => t.category))

/-- The fallback loop of getCandidates over the indexed category names:
the first key related to the normalized requested category by a
case-insensitive substring test in either direction wins. The category
index entry of a key is the corpus filtered to that category, in corpus
order, exactly how buildIndexes fills the JS Map. -/
def fallbackCategory (ts : List Template) (normCat : Str) :
    List Str → Option (List Template)
  | [] => none
  | k :: ks =>
    if isSubstring normCat (toLower k) || isSubstring (toLower k) normCat then
      some (ts.filter (fun t => decide (t.category = k)))
    else fallbackCategory ts normCat ks

/-- TemplateRetriever.getCandidates: exact category match first (the index
has an entry exactly when some template carries the category, and that
entry is then non-empty), then the substring fallback, then the whole
corpus. -/
def getCandidates (ts : List Template) (category : Str) : List Template :=
  let exactMatch := ts.filter (fun t => decide (t.category = category))
  if exactMatch = [] then
    match fallbackCategory ts (toLower category) (categoryKeys ts) with
    | some found => found
    | none => ts
  else exactMatch

/-- One iteration of the keyword loop of calculateScore: plus 2 for an exact
token match, plus 1 for a substring match, both independently; the matched
keyword list records the keyword once. -/
def scoreKeyword (emailWords : List Str) (emailText : Str)
    (acc : ℚ × List Str) (keyword : Str) : ℚ × List Str :=
  let nk := toLower keyword
  let acc1 := if emailWords.contains nk then (acc.1 + 2, acc.2 ++ [keyword]) else acc
  if isSubstring nk emailText then
    (acc1.1 + 1, if acc1.2.contains keyword then acc1.2 else acc1.2 ++ [keyword])
  else acc1

/-- The separator class of the scenario split: whitespace, the ASCII comma
and the two CJK list separators. -/
def isScenarioSep (c : Char) : Bool :=
  isSpaceChar c || c = ',' || c = '，' || c = '、'

/-- TemplateRetriever.calculateScore: the keyword loop, then plus one half
for each scenario word longer than 2 contained in the email text. -/
def calculateScore (t : Template) (emailWords : List Str) (emailText : Str) :
    ℚ × List Str :=
  let kw := t.keywords.foldl (scoreKeyword emailWords emailText) (0, [])
  let scenarioWords := splitRuns isScenarioSep (toLower t.scenario)
  let score := scenarioWords.foldl
    (fun s w => if 2 < w.length && isSubstring w emailText then s + (1 / 2 : ℚ) else s)
    kw.1
  (score, kw.2)

/-- The lowercased subject-space-body text findBestMatches scores against. -/
def emailTextOf (email : ProcessedEmail) : Str :=
  toLower (email.subject ++ (' ' :: email.text))

/-- One scored candidate of findBestMatches. -/
def mkMatch (emailWords : List Str) (emailText : Str) (t : Template) :
    TemplateMatch :=
  let r := calculateScore t emailWords emailText
  ⟨t, r.1, r.2⟩

/-- All candidates of a retrieval call, scored, in candidate order. -/
def scoredMatches (ts : List Template) (email : ProcessedEmail)
    (category : Str) : List TemplateMatch :=
  (getCandidates ts category).map
    (mkMatch (extractKeywords (emailTextOf email)) (emailTextOf email))

/-- Stable insertion into a list sorted by descending score: the new element
goes before the first element whose score is not larger. -/
def insertDesc (m : TemplateMatch) : List TemplateMatch → List TemplateMatch
  | [] => [m]
  | x :: xs => if x.score ≤ m.score then m :: x :: xs else x :: insertDesc m xs

/-- Stable sort by descending score, the behaviour of the JS stable
Array.prototype.sort under the comparator of findBestMatches. -/
def sortDesc : List TemplateMatch → List TemplateMatch
  | [] => []
  | m :: ms => insertDesc m (sortDesc ms)

/-- TemplateRetriever.findBestMatches: score the candidates, drop the zero
scores, sort descending stably, keep the first limit entries. -/
def findBestMatches (ts : List Template) (email : ProcessedEmail)
    (category : Str) (limit : Nat) : List TemplateMatch :=
  (sortDesc ((scoredMatches ts email category).filter
    (fun m => decide (0 < m.score)))).take limit

/-- The selectedIndex field of the JSON object the selection oracle returns:
null, a missing field (undefined in JS), or a number. In the guard of
selectTemplateWithReasoning, null fails the strict non-null test and an
undefined value fails the comparison with 0, so both reject. -/
inductive SelectedIndex
  | null
  | missing
  | val (i : Int)
deriving DecidableEq

/-- The parsed reply of the selection oracle; the confidence field of the
JSON contract is never read by the code and is omitted. -/
structure SelectionDecision where
  selectedIndex : SelectedIndex
  reasoning : Str
deriving DecidableEq

/-- The outcome of the oracle round trip inside the try block of
selectTemplateWithReasoning: either the chat call succeeded and its reply
parsed as JSON, or something threw (a chat error or a JSON parse error). -/
inductive OracleReply
  | parsed (d : SelectionDecision)
  | failure
deriving DecidableEq

/-- The record selectTemplateWithReasoning resolves with. -/
structure SelectedTemplate where
  template : Template
  scenario : Str
  score : ℚ
  reasoning : Str
deriving DecidableEq

/-- The synthetic reasoning string of the local fallback. -/
def fallbackReasoning : Str :=
  "Fallback to highest scoring template due to selection error".data

/-- ZhipuAIService.selectTemplateWithReasoning: retrieve up to 10 scored
candidates; with no candidate, resolve null before any oracle call; when
the oracle call or its JSON parse throws, fall back to the first candidate
with the synthetic reasoning; otherwise honour the oracle index exactly
when it is a number within bounds. -/
def selectTemplateWithReasoning (ts : List Template) (email : ProcessedEmail)
    (category : Str) (oracle : OracleReply) : Option SelectedTemplate :=
  match findBestMatches ts email category 10, oracle with
  | [], _ => none
  | first :: _, .failure =>
    some ⟨first.template, first.template.scenario, first.score, fallbackReasoning⟩
  | first :: rest, .parsed d =>
    match d.selectedIndex with
    | .null => none
    | .missing => none
    | .val i =>
      if 0 ≤ i ∧ i < ((first :: rest).length : Int) then
        let selected := (first :: rest).getD i.toNat first
        some ⟨selected.template, selected.template.scenario, selected.score,
          d.reasoning⟩
      else none

/-- JS Array.prototype.join with a separator. -/
def joinSep (sep : Str) : List Str → Str
  | [] => []
  | [w] => w
  | w :: ws => w ++ sep ++ joinSep sep ws

/-- The keyword line of the manual review notice: keywords joined by a comma
and a space when that is non-empty, else the CJK word for none (undefined
keywords and an empty join are both falsy in JS). -/
def keywordsDisplay (keywords : Option (List Str)) : Str :=
  match keywords with
  | none => "无".data
  | some ks =>
    let joined := joinSep ", ".data ks
    if joined = [] then "无".data else joined

/-- A JS template literal interpolates the word undefined for a missing
value. -/
def jsDisplay : Option Str → Str
  | some s => s
  | none => "undefined".data

/-- The fixed manual review notice of generateResponse, built from the
category, the intent, the keyword list, the sender address and the
subject. -/
def manualReviewMessage (category intent : Str) (keywords : Option (List Str))
    (fromAddress subject : Str) : Str :=
  "📝 需要人工审核\n\n该邮件已被分析为\"".data ++ category ++
  "\"类别，意图为\"".data ++ intent ++
  "\"，但未找到合适的预设模板。\n\n邮件信息：\n- 发件人: ".data ++ fromAddress ++
  "\n- 主题: ".data ++ subject ++
  "\n- 关键问题: ".data ++ keywordsDisplay keywords ++
  "\n\n请人工审核并提供适当的回复。".data

/-- The entry of ResponseResult.matchedTemplates. -/
structure MatchedTemplateInfo where
  id : Str
  scenario : Str
  score : ℚ
deriving DecidableEq

/-- The value generateResponse resolves with; none for matchedTemplates
models undefined. -/
structure ResponseResult where
  response : Str
  language : Str
  matchedTemplates : Option (List MatchedTemplateInfo)
deriving DecidableEq

/-- JS value-or-default with the or operator: undefined and the empty
string are falsy. -/
def jsOrStr (o : Option Str) (d : Str) : Str :=
  match o with
  | some s => if s = [] then d else s
  | none => d

/-- ZhipuAIService.generateResponse. The template store is none when the
service was built without a template path; category, intent, keywords and
language come from the analysis result and may each be absent. The two
oracle-produced texts are parameters: personalized is the trimmed reply of
the personalization call, freeform the reply of the template-less chat
call. The template path runs only when templates are requested, a store is
configured and the category is truthy (JS: a non-empty string). -/
def generateResponse (store : Option (List Template)) (email : ProcessedEmail)
    (category intent : Option Str) (keywords : Option (List Str))
    (language : Option Str) (useTemplates : Bool) (sel : OracleReply)
    (personalized freeform : Str) : ResponseResult :=
  let detectedLanguage := jsOrStr language "en".data
  match store, category with
  | some ts, some c =>
    if useTemplates && decide (c ≠ []) then
      match selectTemplateWithReasoning ts email c sel with
      | some st =>
        { response := personalized, language := detectedLanguage,
          matchedTemplates :=
            some [⟨st.template.id, st.template.scenario, st.score⟩] }
      | none =>
        { response := manualReviewMessage c (jsDisplay intent) keywords
            email.fromAddress email.subject,
          language := detectedLanguage, matchedTemplates := none }
    else
      { response := freeform, language := detectedLanguage,
        matchedTemplates := none }
  | _, _ =>
    { response := freeform, language := detectedLanguage,
      matchedTemplates := none }

/-- The analysis record analyzeEmail resolves with, the fields of the JSON
contract of the intent analysis prompt. -/
structure AnalysisResult where
  language : Str
  category : Str
  intent : Str
  keywords : List Str
  suggestedTemplate : Option Str
  reasoning : Str
  sentiment : Str
  priority : Str
  isImportant : Bool
  suggestedActions : List Str
deriving DecidableEq

/-- JS String.prototype.trim: strip whitespace at both ends. -/
def trimStr (s : Str) : Str :=
  ((s.dropWhile isSpaceChar).reverse.dropWhile isSpaceChar).reverse

/-- Removal of a trailing fence: the anchored replace deletes a final
sequence of three backticks together with the whitespace run before it,
and leaves any other string unchanged. -/
def stripTrailingFence (s : Str) : Str :=
  if ("```".data).isSuffixOf s then
    ((s.take (s.length - 3)).reverse.dropWhile isSpaceChar).reverse
  else s

/-- The fence-stripping step shared by analyzeEmail and the selection
parser: trim, then peel a leading json code fence or a plain code fence
together with the trailing fence. -/
def stripCodeFence (response : Str) : Str :=
  let cleaned := trimStr response
  if ("```json".data).isPrefixOf cleaned then
    stripTrailingFence ((cleaned.drop 7).dropWhile isSpaceChar)
  else if ("```".data).isPrefixOf cleaned then
    stripTrailingFence ((cleaned.drop 3).dropWhile isSpaceChar)
  else cleaned

/-- The safe default analysis returned when the oracle reply does not parse:
important, routed to the follow-up bucket, with an explicit failure note. -/
def defaultAnalysis : AnalysisResult :=
  { language := "en".data, category := "信息收集与跟进".data,
    intent := "UNKNOWN".data, keywords := [], sentiment := "neutral".data,
    priority := "medium".data, isImportant := true,
    suggestedActions := ["Review manually".data], suggestedTemplate := none,
    reasoning := "Failed to parse AI response".data }

/-- ZhipuAIService.analyzeEmail, from the oracle raw reply on: strip the
optional markdown fence, parse as JSON (JSON.parse is a JS builtin, so the
parse is a parameter: none models a throwing parse), and fall back to the
safe default instead of propagating a parse error. -/
def analyzeEmail (parse : Str → Option AnalysisResult) (rawReply : Str) :
    AnalysisResult :=
  match parse (stripCodeFence rawReply) with
  | some a => a
  | none => defaultAnalysis

/-- What one fetch attempt inside ZhipuAIService.chat can come to: a timeout
abort, a non-2xx status, a 2xx reply with no choices, or a content string. -/
inductive AttemptOutcome
  | timeout
  | httpError (status : Nat) (body : Str)
  | noChoices
  | ok (content : Str)
deriving DecidableEq

/-- The errors chat can throw to its caller. -/
inductive ChatError
  | apiError (status : Nat) (body : Str)
  | noResponse
  | aborted
deriving DecidableEq

/-- The result of the whole chat call. -/
inductive ChatOutcome
  | success (content : Str)
  | thrown (e : ChatError)
deriving DecidableEq

/-- The observable steps of the chat loop: a fetch guarded by an abort
timer with its budget in milliseconds, or a backoff sleep. -/
inductive ChatEvent
  | request (attempt timeoutMs : Nat)
  | backoff (ms : Nat)
deriving DecidableEq

/-- The 90 second abort budget of every fetch in chat. -/
def chatTimeoutMs : Nat := 90000

/-- The fixed 2 second sleep before a retry. -/
def chatBackoffMs : Nat := 2000

/-- The default retry count of chat: two extra attempts. -/
def chatRetries : Nat := 2

/-- The retry loop of ZhipuAIService.chat, with the outcome of each fetch
attempt given by oc. A non-timeout failure is rethrown at once; a timeout
is retried after the backoff while attempts remain, and thrown as the
abort error on the last attempt. The event list records every request with
its timeout budget and every backoff. -/
def chatAux (oc : Nat → AttemptOutcome) :
    Nat → Nat → ChatOutcome × List ChatEvent
  | attempt, remaining =>
    match oc attempt, remaining with
    | .ok c, _ => (.success c, [.request attempt chatTimeoutMs])
    | .httpError s b, _ =>
      (.thrown (.apiError s b), [.request attempt chatTimeoutMs])
    | .noChoices, _ => (.thrown .noResponse, [.request attempt chatTimeoutMs])
    | .timeout, 0 => (.thrown .aborted, [.request attempt chatTimeoutMs])
    | .timeout, r + 1 =>
      let rest := chatAux oc (attempt + 1) r
      (rest.1, .request attempt chatTimeoutMs :: .backoff chatBackoffMs :: rest.2)

/-- ZhipuAIService.chat with the default retry count. -/
def chat (oc : Nat → AttemptOutcome) : ChatOutcome × List ChatEvent :=
  chatAux oc 0 chatRetries

/-- The error a non-timeout failed attempt throws, none for a timeout or a
success. -/
def nonTimeoutError : AttemptOutcome → Option ChatError
  | .httpError s b => some (.apiError s b)
  | .noChoices => some .noResponse
  | _ => none

/-- Whether a chat event is a fetch request. -/
def isRequestEvent : ChatEvent → Bool
  | .request _ _ => true
  | .backoff _ => false

/-- The deterministic relevance score of the spec, score(T, E): the score
component of calculateScore over the lowercased subject and body of E. -/
def scoreOf (t : Template) (email : ProcessedEmail) : ℚ :=
  (calculateScore t (extractKeywords (emailTextOf email)) (emailTextOf email)).1

/-- A refund template fixture for the concrete instances below. -/
def refundTemplate : Template :=
  ⟨"tpl-refund-01".data, "退款相关".data, "用户申请退款".data,
    ["refund".data, "退款".data],
    [("en".data, "We are sorry to hear that.".data)]⟩

/-- An email asking for a refund: the scenario 2 fixture of the spec. -/
def refundEmail : ProcessedEmail :=
  ⟨"user@example.com".data, "Order issue".data,
    "I want a refund for my order".data⟩

/-- A template sharing no words with plainEmail, for the zero-score
instance. -/
def unrelatedTemplate : Template :=
  ⟨"tpl-tech-07".data, "技术问题".data, "abc def".data, ["xyzzy".data], []⟩

/-- An email with no keyword or scenario overlap with unrelatedTemplate. -/
def plainEmail : ProcessedEmail :=
  ⟨"u@v.w".data, "hello".data, "world now".data⟩

/-- A template whose category shares nothing with the request ZZZ, for the
unscoped fallback instance. -/
def offCategoryTemplate : Template :=
  ⟨"tpl-a".data, "AAA".data, "scn".data, [], []⟩

/-- Membership in a stable insertion. -/
theorem mem_insertDesc {x m : TemplateMatch} {l : List TemplateMatch} :
    x ∈ insertDesc m l ↔ x = m ∨ x ∈ l := by
  induction l with
  | nil => simp [insertDesc]
  | cons y ys ih =>
    by_cases h : y.score ≤ m.score
    all_goals simp [insertDesc, h, ih] <;> tauto

/-- Stable insertion preserves the descending order. -/
theorem pairwise_insertDesc {m : TemplateMatch} {l : List TemplateMatch}
    (h : l.Pairwise (fun a b => b.score ≤ a.score)) :
    (insertDesc m l).Pairwise (fun a b => b.score ≤ a.score) := by
  induction l with
  | nil => simp [insertDesc]
  | cons y ys ih =>
    rcases List.pairwise_cons.mp h with ⟨hy, hys⟩
    by_cases hc : y.score ≤ m.score
    · simp only [insertDesc, if_pos hc]
      refine List.pairwise_cons.mpr ⟨?_, h⟩
      intro b hb
      rcases List.mem_cons.mp hb with rfl | hb
      · exact hc
      · exact le_trans (hy b hb) hc
    · simp only [insertDesc, if_neg hc]
      refine List.pairwise_cons.mpr ⟨?_, ih hys⟩
      intro b hb
      rcases mem_insertDesc.mp hb with rfl | hb
      · exact (not_le.mp hc).le
      · exact hy b hb

/-- The sort output is in descending score order. -/
theorem sortDesc_pairwise (l : List TemplateMatch) :
    (sortDesc l).Pairwise (fun a b => b.score ≤ a.score) := by
  induction l with
  | nil => simp [sortDesc]
  | cons m ms ih => exact pairwise_insertDesc ih

/-- The sort output has the same members as its input. -/
theorem mem_sortDesc {x : TemplateMatch} {l : List TemplateMatch} :
    x ∈ sortDesc l ↔ x ∈ l := by
  induction l with
  | nil => simp [sortDesc]
  | cons m ms ih => simp [sortDesc, mem_insertDesc, ih]

/-- Stability of the insertion, expressed per score class: the elements
skipped over have a strictly larger score, so restricting to one score
value commutes with the insertion. -/
theorem filter_insertDesc (m : TemplateMatch) (l : List TemplateMatch)
    (s : ℚ) :
    (insertDesc m l).filter (fun x => decide (x.score = s)) =
      (m :: l).filter (fun x => decide (x.score = s)) := by
  induction l with
  | nil => rfl
  | cons y ys ih =>
    by_cases hc : y.score ≤ m.score
    · simp [insertDesc, hc]
    · have hm : m.score < y.score := not_le.mp hc
      simp only [insertDesc]
      rw [if_neg hc]
      by_cases hys : y.score = s
      · have hms : ¬(m.score = s) := by
          intro hm2
          exact absurd (hm2.trans hys.symm) (ne_of_lt hm)
        simp only [List.filter_cons, ih]
        simp [hys, hms]
      · simp only [List.filter_cons, ih]
        simp [hys]

/-- Stability of the sort, expressed per score class: the entries of any
one score value come out in their input order. -/
theorem filter_sortDesc (l : List TemplateMatch) (s : ℚ) :
    (sortDesc l).filter (fun x => decide (x.score = s)) =
      l.filter (fun x => decide (x.score = s)) := by
  induction l with
  | nil => rfl
  | cons m ms ih =>
    rw [sortDesc, filter_insertDesc]
    simp [List.filter_cons, ih]

/-- A successful fallback lookup returns part of the corpus in corpus
order. -/
theorem fallbackCategory_sublist (ts : List Template) (normCat : Str) :
    ∀ (keys : List Str) (found : List Template),
      fallbackCategory ts normCat keys = some found → found.Sublist ts := by
  intro keys
  induction keys with
  | nil => intro found h; simp [fallbackCategory] at h
  | cons k ks ih =>
    intro found h
    by_cases hc :
        (isSubstring normCat (toLower k) || isSubstring (toLower k) normCat)
          = true
    · rw [fallbackCategory, if_pos hc] at h
      cases h
      exact List.filter_sublist ts
    · rw [fallbackCategory, if_neg hc] at h
      exact ih found h

/-- The candidate list is always drawn from the corpus in corpus order. -/
theorem getCandidates_sublist (ts : List Template) (category : Str) :
    (getCandidates ts category).Sublist ts := by
  simp only [getCandidates]
  split
  · split
    · next found h => exact fallbackCategory_sublist ts _ _ found h
    · exact List.Sublist.refl ts
  · exact List.filter_sublist ts

/-- Claim C1: findBestMatches returns at most limit entries, sorted
non-increasing by score, with no entry of score 0; entries of equal score
keep the relative order of the scored candidate list, which itself lists
the corpus templates in corpus order (the stable sort of the JS
comparator). -/
theorem findBestMatches_sorted_bounded_stable (ts : List Template)
    (email : ProcessedEmail) (category : Str) (limit : Nat) :
    (findBestMatches ts email category limit).length ≤ limit ∧
    (findBestMatches ts email category limit).Pairwise
      (fun a b => b.score ≤ a.score) ∧
    (∀ m ∈ findBestMatches ts email category limit, m.score ≠ 0) ∧
    (∀ s : ℚ,
      ((findBestMatches ts email category limit).filter
          (fun m => decide (m.score = s))).Sublist
        ((scoredMatches ts email category).filter
          (fun m => decide (m.score = s)))) ∧
    (getCandidates ts category).Sublist ts := by
  refine ⟨List.length_take_le _ _, ?_, ?_, ?_, getCandidates_sublist ts category⟩
  · exact List.Pairwise.sublist (List.take_sublist _ _) (sortDesc_pairwise _)
  · intro m hm
    have h1 : m ∈ sortDesc ((scoredMatches ts email category).filter
        (fun m => decide (0 < m.score))) :=
      List.mem_of_mem_take hm
    have h2 := List.mem_filter.mp (mem_sortDesc.mp h1)
    have h3 : 0 < m.score := by simpa using h2.2
    exact ne_of_gt h3
  · intro s
    have h1 : ((findBestMatches ts email category limit).filter
        (fun m => decide (m.score = s))).Sublist
          ((sortDesc ((scoredMatches ts email category).filter
            (fun m => decide (0 < m.score)))).filter
              (fun m => decide (m.score = s))) :=
      List.Sublist.filter _ (List.take_sublist _ _)
    rw [filter_sortDesc] at h1
    exact h1.trans (List.Sublist.filter _ (List.filter_sublist _))

/-- Claim C7: when the requested category is carried by some corpus
template (so is an indexed category name), getCandidates returns exactly
the templates of that category, and neither the substring fallback nor the
whole-corpus fallback is consulted. -/
theorem getCandidates_exact_category (ts : List Template) (category : Str)
    (t : Template) (ht : t ∈ ts) (hc : t.category = category) :
    getCandidates ts category =
      ts.filter (fun u => decide (u.category = category)) := by
  have hne : ts.filter (fun u => decide (u.category = category)) ≠ [] := by
    intro h
    have hmem : t ∈ ts.filter (fun u => decide (u.category = category)) :=
      List.mem_filter.mpr ⟨ht, by simp [hc]⟩
    rw [h] at hmem
    exact absurd hmem (List.not_mem_nil t)
  simp only [getCandidates]
  rw [if_neg hne]

/-- Membership after first-occurrence deduplication implies membership in
the input. -/
theorem mem_of_mem_dedupFirstAux [DecidableEq α] {x : α} :
    ∀ {l seen : List α}, x ∈ dedupFirstAux seen l → x ∈ l := by
  intro l
  induction l with
  | nil => intro seen h; simp [dedupFirstAux] at h
  | cons y ys ih =>
    intro seen h
    by_cases hy : y ∈ seen
    · rw [dedupFirstAux, if_pos hy] at h
      exact List.mem_cons_of_mem _ (ih h)
    · rw [dedupFirstAux, if_neg hy] at h
      rcases List.mem_cons.mp h with rfl | h
      · exact List.mem_cons_self _ _
      · exact List.mem_cons_of_mem _ (ih h)

/-- A fallback scan over keys none of which pass the substring test finds
nothing. -/
theorem fallbackCategory_none (ts : List Template) (normCat : Str) :
    ∀ (keys : List Str),
      (∀ k ∈ keys,
        (isSubstring normCat (toLower k) || isSubstring (toLower k) normCat)
          = false) →
      fallbackCategory ts normCat keys = none := by
  intro keys
  induction keys with
  | nil => intro _; rfl
  | cons k ks ih =>
    intro h
    have hk := h k (List.mem_cons_self _ _)
    rw [fallbackCategory, if_neg (by simp [hk])]
    exact ih fun j hj => h j (List.mem_cons_of_mem _ hj)

/-- Claim C8: when the requested category matches no corpus category
exactly and no indexed category name by a case-insensitive substring test
in either direction, the candidate set falls back to the whole corpus, so
findBestMatches scores every template; with an empty corpus it returns the
empty list. -/
theorem getCandidates_unscoped_fallback (ts : List Template) (category : Str)
    (h1 : ∀ t ∈ ts, t.category ≠ category)
    (h2 : ∀ t ∈ ts,
      isSubstring (toLower category) (toLower t.category) = false ∧
      isSubstring (toLower t.category) (toLower category) = false) :
    getCandidates ts category = ts ∧
    (ts ≠ [] → getCandidates ts category ≠ []) ∧
    (∀ email limit, ts = [] → findBestMatches ts email category limit = []) := by
  have he : ts.filter (fun t => decide (t.category = category)) = [] :=
    List.filter_eq_nil_iff.mpr (by intro t ht; simpa using h1 t ht)
  have hf : fallbackCategory ts (toLower category) (categoryKeys ts) = none := by
    apply fallbackCategory_none
    intro k hk
    have hmap : k ∈ ts.map (fun t => t.category) := mem_of_mem_dedupFirstAux hk
    rcases List.mem_map.mp hmap with ⟨t, ht, rfl⟩
    rcases h2 t ht with ⟨ha, hb⟩
    simp [ha, hb]
  have hts : getCandidates ts category = ts := by
    simp only [getCandidates]
    rw [if_pos he, hf]
  refine ⟨hts, ?_, ?_⟩
  · intro hne
    rw [hts]
    exact hne
  · intro email limit h0
    subst h0
    simp [findBestMatches, scoredMatches, hts, sortDesc]

/-- One keyword step never lowers the score. -/
theorem scoreKeyword_le (emailWords : List Str) (emailText : Str)
    (acc : ℚ × List Str) (k : Str) :
    acc.1 ≤ (scoreKeyword emailWords emailText acc k).1 := by
  simp only [scoreKeyword]
  split_ifs <;> simp <;> linarith

/-- The keyword loop never lowers the score. -/
theorem foldl_scoreKeyword_le (emailWords : List Str) (emailText : Str)
    (ks : List Str) (acc : ℚ × List Str) :
    acc.1 ≤ (ks.foldl (scoreKeyword emailWords emailText) acc).1 := by
  induction ks generalizing acc with
  | nil => exact le_refl _
  | cons k ks ih =>
    exact le_trans (scoreKeyword_le emailWords emailText acc k) (ih _)

/-- The scenario loop never lowers the score. -/
theorem foldl_scenario_le (emailText : Str) (ws : List Str) (s0 : ℚ) :
    s0 ≤ ws.foldl
      (fun s w =>
        if 2 < w.length && isSubstring w emailText then s + (1 / 2 : ℚ) else s)
      s0 := by
  induction ws generalizing s0 with
  | nil => exact le_refl _
  | cons w ws ih =>
    refine le_trans ?_ (ih _)
    dsimp only
    split <;> linarith

/-- A keyword matching neither as a token nor as a substring leaves the
accumulator unchanged. -/
theorem scoreKeyword_no_match {emailWords : List Str} {emailText : Str}
    {k : Str} (h1 : emailWords.contains (toLower k) = false)
    (h2 : isSubstring (toLower k) emailText = false)
    (acc : ℚ × List Str) : scoreKeyword emailWords emailText acc k = acc := by
  simp only [scoreKeyword]
  rw [h1, h2]
  simp

/-- The keyword loop over keywords with no match leaves the accumulator
unchanged. -/
theorem foldl_scoreKeyword_no_match {emailWords : List Str}
    {emailText : Str} {ks : List Str}
    (h : ∀ k ∈ ks,
      emailWords.contains (toLower k) = false ∧
      isSubstring (toLower k) emailText = false) (acc : ℚ × List Str) :
    ks.foldl (scoreKeyword emailWords emailText) acc = acc := by
  induction ks generalizing acc with
  | nil => rfl
  | cons k ks ih =>
    rcases h k (List.mem_cons_self _ _) with ⟨h1, h2⟩
    rw [List.foldl_cons, scoreKeyword_no_match h1 h2]
    exact ih (fun j hj => h j (List.mem_cons_of_mem _ hj)) acc

/-- The scenario loop over words none of which both exceed length 2 and
occur in the text leaves the score unchanged. -/
theorem foldl_scenario_no_match {emailText : Str} {ws : List Str}
    (h : ∀ w ∈ ws, 2 < w.length → isSubstring w emailText = false)
    (s0 : ℚ) :
    ws.foldl
      (fun s w =>
        if 2 < w.length && isSubstring w emailText then s + (1 / 2 : ℚ) else s)
      s0 = s0 := by
  induction ws generalizing s0 with
  | nil => rfl
  | cons w ws ih =>
    have hw : ¬(2 < w.length && isSubstring w emailText) = true := by
      by_cases hl : 2 < w.length
      · simp [hl, h w (List.mem_cons_self _ _) hl]
      · simp [hl]
    rw [List.foldl_cons, if_neg hw]
    exact ih (fun j hj => h j (List.mem_cons_of_mem _ hj)) s0

/-- Claim C6: the score is never negative, and it is 0 when no lowercased
keyword of the template occurs in the lowercased subject-and-body text as
an extracted token or as a substring, and no scenario word longer than 2
occurs in that text. -/
theorem scoreOf_nonneg_and_zero (t : Template) (email : ProcessedEmail) :
    0 ≤ scoreOf t email ∧
    ((∀ k ∈ t.keywords,
        (extractKeywords (emailTextOf email)).contains (toLower k) = false ∧
        isSubstring (toLower k) (emailTextOf email) = false) →
      (∀ w ∈ splitRuns isScenarioSep (toLower t.scenario),
        2 < w.length → isSubstring w (emailTextOf email) = false) →
      scoreOf t email = 0) := by
  constructor
  · have h1 : (0 : ℚ) ≤
        (t.keywords.foldl
          (scoreKeyword (extractKeywords (emailTextOf email))
            (emailTextOf email)) (0, [])).1 :=
      foldl_scoreKeyword_le _ _ _ (0, [])
    have h2 := foldl_scenario_le (emailTextOf email)
      (splitRuns isScenarioSep (toLower t.scenario))
      (t.keywords.foldl
        (scoreKeyword (extractKeywords (emailTextOf email))
          (emailTextOf email)) (0, [])).1
    simp only [scoreOf, calculateScore]
    linarith
  · intro hk hw
    simp only [scoreOf, calculateScore]
    rw [foldl_scoreKeyword_no_match hk, foldl_scenario_no_match hw]

/-- Claim C5: the exact-token bonus of 2 and the substring bonus of 1 are
independent and both apply to one keyword: a keyword that occurs both as
an extracted token and as a substring of the email text contributes
exactly 3 in its loop step, so a template carrying the keyword refund
scores at least 3 against such an email, scenario bonus aside. -/
theorem refund_token_and_substring_score (t : Template)
    (email : ProcessedEmail) (hk : "refund".data ∈ t.keywords)
    (htok : (extractKeywords (emailTextOf email)).contains "refund".data
      = true)
    (hsub : isSubstring "refund".data (emailTextOf email) = true) :
    (∀ acc : ℚ × List Str,
      (scoreKeyword (extractKeywords (emailTextOf email)) (emailTextOf email)
        acc "refund".data).1 = acc.1 + 3) ∧
    3 ≤ (t.keywords.foldl
      (scoreKeyword (extractKeywords (emailTextOf email))
        (emailTextOf email)) (0, [])).1 ∧
    3 ≤ scoreOf t email := by
  have hlow : toLower "refund".data = "refund".data := by decide
  have hstep : ∀ acc : ℚ × List Str,
      (scoreKeyword (extractKeywords (emailTextOf email)) (emailTextOf email)
        acc "refund".data).1 = acc.1 + 3 := by
    intro acc
    simp only [scoreKeyword]
    rw [hlow, htok, hsub]
    simp
    ring
  have hfold : 3 ≤ (t.keywords.foldl
      (scoreKeyword (extractKeywords (emailTextOf email))
        (emailTextOf email)) (0, [])).1 := by
    rcases List.append_of_mem hk with ⟨l1, l2, hsplit⟩
    rw [hsplit, List.foldl_append, List.foldl_cons]
    have hA : (0 : ℚ) ≤ (l1.foldl
        (scoreKeyword (extractKeywords (emailTextOf email))
          (emailTextOf email)) (0, [])).1 :=
      foldl_scoreKeyword_le _ _ _ (0, [])
    have hB := hstep (l1.foldl
      (scoreKeyword (extractKeywords (emailTextOf email))
        (emailTextOf email)) (0, []))
    have hC := foldl_scoreKeyword_le (extractKeywords (emailTextOf email))
      (emailTextOf email) l2
      (scoreKeyword (extractKeywords (emailTextOf email)) (emailTextOf email)
        (l1.foldl
          (scoreKeyword (extractKeywords (emailTextOf email))
            (emailTextOf email)) (0, []))
        "refund".data)
    linarith
  refine ⟨hstep, hfold, ?_⟩
  have h2 := foldl_scenario_le (emailTextOf email)
    (splitRuns isScenarioSep (toLower t.scenario))
    (t.keywords.foldl
      (scoreKeyword (extractKeywords (emailTextOf email))
        (emailTextOf email)) (0, [])).1
  simp only [scoreOf, calculateScore]
  linarith

/-- A parsed selection reply with a null index resolves null: no template. -/
theorem selectTemplate_null (ts : List Template) (email : ProcessedEmail)
    (category : Str) (d : SelectionDecision)
    (hd : d.selectedIndex = .null) :
    selectTemplateWithReasoning ts email category (.parsed d) = none := by
  cases h : findBestMatches ts email category 10 with
  | nil => simp [selectTemplateWithReasoning, h]
  | cons first rest => simp [selectTemplateWithReasoning, h, hd]

/-- Claim C2: with templates enabled, a configured store and a truthy
category, a parsed selection reply with selectedIndex null yields the
manual review outcome: matchedTemplates stays undefined and the response
is the fixed notice naming the category, the intent, the keywords, the
sender and the subject; moreover matchedTemplates is ever populated only
on the personalized outcome, whose response is the personalization text. -/
theorem generateResponse_manual_review (ts : List Template)
    (email : ProcessedEmail) (c : Str) (intent : Option Str)
    (keywords : Option (List Str)) (language : Option Str)
    (d : SelectionDecision) (personalized freeform : Str)
    (hc : c ≠ []) (hd : d.selectedIndex = .null) :
    ((generateResponse (some ts) email (some c) intent keywords language true
        (.parsed d) personalized freeform).matchedTemplates = none ∧
      (generateResponse (some ts) email (some c) intent keywords language true
        (.parsed d) personalized freeform).response =
        manualReviewMessage c (jsDisplay intent) keywords email.fromAddress
          email.subject) ∧
    (∀ (store : Option (List Template)) (category : Option Str)
        (useTemplates : Bool) (sel : OracleReply) (p f : Str),
      (generateResponse store email category intent keywords language
          useTemplates sel p f).matchedTemplates ≠ none →
      ∃ ts2 c2 st, store = some ts2 ∧ category = some c2 ∧
        useTemplates = true ∧
        selectTemplateWithReasoning ts2 email c2 sel = some st ∧
        generateResponse store email category intent keywords language
            useTemplates sel p f =
          { response := p, language := jsOrStr language "en".data,
            matchedTemplates :=
              some [⟨st.template.id, st.template.scenario, st.score⟩] }) := by
  constructor
  · have hsel := selectTemplate_null ts email c d hd
    constructor <;> simp [generateResponse, hc, hsel]
  · intro store category useTemplates sel p f hmt
    match store, category with
    | none, _ => simp [generateResponse] at hmt
    | some ts2, none => simp [generateResponse] at hmt
    | some ts2, some c2 =>
      by_cases hu : useTemplates = true
      · by_cases hc2 : c2 = []
        · simp [generateResponse, hu, hc2] at hmt
        · cases hsel : selectTemplateWithReasoning ts2 email c2 sel with
          | none => simp [generateResponse, hu, hc2, hsel] at hmt
          | some st =>
            refine ⟨ts2, c2, st, rfl, rfl, hu, hsel, ?_⟩
            simp [generateResponse, hu, hc2, hsel]
      · simp [generateResponse, hu] at hmt

/-- Claim C3: a selection of the analyzer on a raw oracle reply whose
fence-stripped text does not parse as JSON: analyzeEmail returns the safe
default instead of throwing, flagged important, in the follow-up category,
with a non-empty reasoning. -/
theorem analyzeEmail_parse_failure_default
    (parse : Str → Option AnalysisResult) (rawReply : Str)
    (h : parse (stripCodeFence rawReply) = none) :
    analyzeEmail parse rawReply = defaultAnalysis ∧
    (analyzeEmail parse rawReply).isImportant = true ∧
    (analyzeEmail parse rawReply).category = "信息收集与跟进".data ∧
    (analyzeEmail parse rawReply).reasoning ≠ [] := by
  have he : analyzeEmail parse rawReply = defaultAnalysis := by
    simp [analyzeEmail, h]
  refine ⟨he, ?_, ?_, ?_⟩ <;> rw [he] <;> decide

/-- Claim C4: when the selection oracle round trip fails (a thrown chat
error or an unparsable reply) and the deterministic candidate list is
non-empty, the composer accepts the first entry of the findBestMatches
output with the synthetic fallback reasoning instead of failing. -/
theorem selectTemplate_parse_failure (ts : List Template)
    (email : ProcessedEmail) (category : Str) (first : TemplateMatch)
    (rest : List TemplateMatch)
    (h : findBestMatches ts email category 10 = first :: rest) :
    selectTemplateWithReasoning ts email category .failure =
      some ⟨first.template, first.template.scenario, first.score,
        fallbackReasoning⟩ := by
  simp [selectTemplateWithReasoning, h]

/-- Claim C10: a parsed selection reply whose index is absent, negative or
not below the candidate count never reaches the candidate list access: it
resolves exactly like an explicit null, and generateResponse then yields
the manual review outcome with matchedTemplates undefined. -/
theorem selectTemplate_invalid_index (ts : List Template)
    (email : ProcessedEmail) (c : Str) (d : SelectionDecision)
    (h : d.selectedIndex = .missing ∨
      ∃ i, d.selectedIndex = .val i ∧
        (i < 0 ∨ ((findBestMatches ts email c 10).length : Int) ≤ i)) :
    selectTemplateWithReasoning ts email c (.parsed d) = none ∧
    selectTemplateWithReasoning ts email c (.parsed d) =
      selectTemplateWithReasoning ts email c
        (.parsed ⟨SelectedIndex.null, d.reasoning⟩) ∧
    (∀ intent keywords language personalized freeform, c ≠ [] →
      generateResponse (some ts) email (some c) intent keywords language true
          (.parsed d) personalized freeform =
        { response := manualReviewMessage c (jsDisplay intent) keywords
            email.fromAddress email.subject,
          language := jsOrStr language "en".data,
          matchedTemplates := none }) := by
  have hnone : selectTemplateWithReasoning ts email c (.parsed d) = none := by
    cases hm : findBestMatches ts email c 10 with
    | nil => simp [selectTemplateWithReasoning, hm]
    | cons f r =>
      rcases h with hmiss | ⟨i, hval, hbound⟩
      · simp [selectTemplateWithReasoning, hm, hmiss]
      · have hlen2 : (findBestMatches ts email c 10).length = r.length + 1 := by
          rw [hm]
          rfl
        have hcast : ((f :: r).length : Int) = (r.length : Int) + 1 := by simp
        have hif : ¬(0 ≤ i ∧ i < ((f :: r).length : Int)) := by
          rw [hcast]
          rw [hlen2] at hbound
          omega
        simp [selectTemplateWithReasoning, hm, hval, hif]
        rw [hlen2] at hbound
        omega
  refine ⟨hnone, ?_, ?_⟩
  · rw [hnone, selectTemplate_null ts email c _ rfl]
  · intro intent keywords language personalized freeform hc
    simp [generateResponse, hc, hnone]

/-- Unfolding of the chat loop on a successful attempt. -/
theorem chatAux_ok (oc : Nat → AttemptOutcome) {attempt : Nat} {c : Str}
    (h : oc attempt = .ok c) (remaining : Nat) :
    chatAux oc attempt remaining =
      (.success c, [.request attempt chatTimeoutMs]) := by
  unfold chatAux
  rw [h]

/-- Unfolding of the chat loop on a non-2xx status. -/
theorem chatAux_http (oc : Nat → AttemptOutcome) {attempt s : Nat} {b : Str}
    (h : oc attempt = .httpError s b) (remaining : Nat) :
    chatAux oc attempt remaining =
      (.thrown (.apiError s b), [.request attempt chatTimeoutMs]) := by
  unfold chatAux
  rw [h]

/-- Unfolding of the chat loop on an empty choices reply. -/
theorem chatAux_noChoices (oc : Nat → AttemptOutcome) {attempt : Nat}
    (h : oc attempt = .noChoices) (remaining : Nat) :
    chatAux oc attempt remaining =
      (.thrown .noResponse, [.request attempt chatTimeoutMs]) := by
  unfold chatAux
  rw [h]

/-- Unfolding of the chat loop on a timeout of the last attempt. -/
theorem chatAux_timeout_last (oc : Nat → AttemptOutcome) {attempt : Nat}
    (h : oc attempt = .timeout) :
    chatAux oc attempt 0 =
      (.thrown .aborted, [.request attempt chatTimeoutMs]) := by
  unfold chatAux
  rw [h]

/-- Unfolding of the chat loop on a timeout with retries left. -/
theorem chatAux_timeout_retry (oc : Nat → AttemptOutcome) {attempt : Nat}
    (h : oc attempt = .timeout) (r : Nat) :
    chatAux oc attempt (r + 1) =
      ((chatAux oc (attempt + 1) r).1,
        .request attempt chatTimeoutMs :: .backoff chatBackoffMs ::
          (chatAux oc (attempt + 1) r).2) := by
  conv_lhs => unfold chatAux
  rw [h]

/-- The chat loop issues at most one request more than it has retries
left. -/
theorem chatAux_requests_le (oc : Nat → AttemptOutcome) :
    ∀ (remaining attempt : Nat),
      ((chatAux oc attempt remaining).2.filter isRequestEvent).length ≤
        remaining + 1 := by
  intro remaining
  induction remaining with
  | zero =>
    intro attempt
    cases h : oc attempt
    · rw [chatAux_timeout_last oc h]
      simp [isRequestEvent]
    · rw [chatAux_http oc h]
      simp [isRequestEvent]
    · rw [chatAux_noChoices oc h]
      simp [isRequestEvent]
    · rw [chatAux_ok oc h]
      simp [isRequestEvent]
  | succ r ih =>
    intro attempt
    cases h : oc attempt
    · rw [chatAux_timeout_retry oc h]
      simp only [List.filter_cons, isRequestEvent, List.length_cons]
      have := ih (attempt + 1)
      simp
      omega
    · rw [chatAux_http oc h]
      simp [isRequestEvent]
    · rw [chatAux_noChoices oc h]
      simp [isRequestEvent]
    · rw [chatAux_ok oc h]
      simp [isRequestEvent]

/-- Every event of the chat loop is a request with the 90 second budget or
a backoff of 2 seconds. -/
theorem chatAux_events_shape (oc : Nat → AttemptOutcome) :
    ∀ (remaining attempt : Nat) (e : ChatEvent),
      e ∈ (chatAux oc attempt remaining).2 →
      (∃ k, e = .request k chatTimeoutMs) ∨ e = .backoff chatBackoffMs := by
  intro remaining
  induction remaining with
  | zero =>
    intro attempt e he
    cases h : oc attempt
    · rw [chatAux_timeout_last oc h] at he
      simp at he
      exact Or.inl ⟨attempt, he⟩
    · rw [chatAux_http oc h] at he
      simp at he
      exact Or.inl ⟨attempt, he⟩
    · rw [chatAux_noChoices oc h] at he
      simp at he
      exact Or.inl ⟨attempt, he⟩
    · rw [chatAux_ok oc h] at he
      simp at he
      exact Or.inl ⟨attempt, he⟩
  | succ r ih =>
    intro attempt e he
    cases h : oc attempt
    · rw [chatAux_timeout_retry oc h] at he
      simp only [List.mem_cons] at he
      rcases he with he | he | he
      · exact Or.inl ⟨attempt, he⟩
      · exact Or.inr he
      · exact ih (attempt + 1) e he
    · rw [chatAux_http oc h] at he
      simp at he
      exact Or.inl ⟨attempt, he⟩
    · rw [chatAux_noChoices oc h] at he
      simp at he
      exact Or.inl ⟨attempt, he⟩
    · rw [chatAux_ok oc h] at he
      simp at he
      exact Or.inl ⟨attempt, he⟩

/-- The chat loop throws the abort error exactly when every attempt it may
make times out. -/
theorem chatAux_aborted_iff (oc : Nat → AttemptOutcome) :
    ∀ (remaining attempt : Nat),
      ((chatAux oc attempt remaining).1 = .thrown .aborted ↔
        ∀ j ≤ remaining, oc (attempt + j) = .timeout) := by
  intro remaining
  induction remaining with
  | zero =>
    intro attempt
    cases h : oc attempt
    · rw [chatAux_timeout_last oc h]
      simp [h]
    · rw [chatAux_http oc h]
      simp [Nat.le_zero, h]
    · rw [chatAux_noChoices oc h]
      simp [Nat.le_zero, h]
    · rw [chatAux_ok oc h]
      simp [Nat.le_zero, h]
  | succ r ih =>
    intro attempt
    cases h : oc attempt
    · rw [chatAux_timeout_retry oc h]
      show (chatAux oc (attempt + 1) r).1 = .thrown .aborted ↔ _
      rw [ih (attempt + 1)]
      constructor
      · intro hall j hj
        cases j with
        | zero => simpa using h
        | succ j2 =>
          have hidx : attempt + (j2 + 1) = attempt + 1 + j2 := by omega
          rw [hidx]
          exact hall j2 (by omega)
      · intro hall j hj
        have hidx : attempt + 1 + j = attempt + (j + 1) := by omega
        rw [hidx]
        exact hall (j + 1) (by omega)
    · rw [chatAux_http oc h]
      simp only [Prod.fst]
      constructor
      · intro hcon
        exact absurd hcon (by simp)
      · intro hall
        have h0 := hall 0 (by omega)
        rw [Nat.add_zero, h] at h0
        exact absurd h0 (by simp)
    · rw [chatAux_noChoices oc h]
      simp only [Prod.fst]
      constructor
      · intro hcon
        exact absurd hcon (by simp)
      · intro hall
        have h0 := hall 0 (by omega)
        rw [Nat.add_zero, h] at h0
        exact absurd h0 (by simp)
    · rw [chatAux_ok oc h]
      simp only [Prod.fst]
      constructor
      · intro hcon
        exact absurd hcon (by simp)
      · intro hall
        have h0 := hall 0 (by omega)
        rw [Nat.add_zero, h] at h0
        exact absurd h0 (by simp)

/-- A non-timeout failure after a run of timeouts is thrown at once, with
no further attempt. -/
theorem chatAux_nontimeout_immediate (oc : Nat → AttemptOutcome) :
    ∀ (remaining attempt k : Nat) (e : ChatError), k ≤ remaining →
      (∀ j, j < k → oc (attempt + j) = .timeout) →
      nonTimeoutError (oc (attempt + k)) = some e →
      (chatAux oc attempt remaining).1 = .thrown e ∧
      ((chatAux oc attempt remaining).2.filter isRequestEvent).length =
        k + 1 := by
  intro remaining
  induction remaining with
  | zero =>
    intro attempt k e hk hprev herr
    have hk0 : k = 0 := Nat.le_zero.mp hk
    subst hk0
    rw [Nat.add_zero] at herr
    cases h : oc attempt
    · rw [h] at herr
      simp [nonTimeoutError] at herr
    · rw [h] at herr
      simp only [nonTimeoutError, Option.some.injEq] at herr
      rw [chatAux_http oc h]
      simp [isRequestEvent, herr]
    · rw [h] at herr
      simp only [nonTimeoutError, Option.some.injEq] at herr
      rw [chatAux_noChoices oc h]
      simp [isRequestEvent, herr]
    · rw [h] at herr
      simp [nonTimeoutError] at herr
  | succ r ih =>
    intro attempt k e hk hprev herr
    cases k with
    | zero =>
      rw [Nat.add_zero] at herr
      cases h : oc attempt
      · rw [h] at herr
        simp [nonTimeoutError] at herr
      · rw [h] at herr
        simp only [nonTimeoutError, Option.some.injEq] at herr
        rw [chatAux_http oc h]
        simp [isRequestEvent, herr]
      · rw [h] at herr
        simp only [nonTimeoutError, Option.some.injEq] at herr
        rw [chatAux_noChoices oc h]
        simp [isRequestEvent, herr]
      · rw [h] at herr
        simp [nonTimeoutError] at herr
    | succ k2 =>
      have h0 : oc attempt = .timeout := by
        simpa using hprev 0 (Nat.succ_pos _)
      have hrec := ih (attempt + 1) k2 e (by omega)
        (fun j hj => by
          have hp := hprev (j + 1) (by omega)
          have hidx : attempt + (j + 1) = attempt + 1 + j := by omega
          rw [hidx] at hp
          exact hp)
        (by
          have hidx : attempt + (k2 + 1) = attempt + 1 + k2 := by omega
          rw [hidx] at herr
          exact herr)
      rw [chatAux_timeout_retry oc h0]
      refine ⟨hrec.1, ?_⟩
      simp only [List.filter_cons, isRequestEvent, List.length_cons]
      simp [hrec.2]

/-- Claim C9: every chat call makes at most three fetch attempts (the two
default retries plus one); every fetch runs under the 90 second abort
budget and every backoff sleeps 2 seconds; the abort error surfaces
exactly when all allowed attempts time out (so a timeout error surfaces
only after the retries are exhausted); and a non-timeout failure (non-2xx
status or empty choices) after any run of timeouts is thrown immediately,
with no further attempt. -/
theorem chat_retry_policy (oc : Nat → AttemptOutcome) :
    (((chat oc).2.filter isRequestEvent).length ≤ chatRetries + 1) ∧
    (∀ e ∈ (chat oc).2,
      (∃ k, e = .request k chatTimeoutMs) ∨ e = .backoff chatBackoffMs) ∧
    ((chat oc).1 = .thrown .aborted ↔ ∀ j ≤ chatRetries, oc j = .timeout) ∧
    (∀ k e, k ≤ chatRetries → (∀ j, j < k → oc j = .timeout) →
      nonTimeoutError (oc k) = some e →
      (chat oc).1 = .thrown e ∧
      ((chat oc).2.filter isRequestEvent).length = k + 1) := by
  refine ⟨chatAux_requests_le oc chatRetries 0,
    chatAux_events_shape oc chatRetries 0, ?_, ?_⟩
  · rw [chat, chatAux_aborted_iff oc chatRetries 0]
    constructor <;> intro hall j hj <;> simpa using hall j hj
  · intro k e hk hprev herr
    exact chatAux_nontimeout_immediate oc chatRetries 0 k e hk
      (fun j hj => by simpa using hprev j hj) (by simpa using herr)

/-- Concrete instance of the manual review outcome: an explicit null index
over a one-template store. -/
theorem generateResponse_manual_review_witness :
    (generateResponse (some [refundTemplate]) refundEmail
        (some "退款相关".data) (some "REFUND_REQUEST".data)
        (some ["refund".data]) (some "en".data) true
        (.parsed ⟨SelectedIndex.null, "none fits".data⟩) "p".data
        "f".data).matchedTemplates = none ∧
    (generateResponse (some [refundTemplate]) refundEmail
        (some "退款相关".data) (some "REFUND_REQUEST".data)
        (some ["refund".data]) (some "en".data) true
        (.parsed ⟨SelectedIndex.null, "none fits".data⟩) "p".data
        "f".data).response =
      manualReviewMessage "退款相关".data
        (jsDisplay (some "REFUND_REQUEST".data)) (some ["refund".data])
        refundEmail.fromAddress refundEmail.subject :=
  (generateResponse_manual_review [refundTemplate] refundEmail
    "退款相关".data (some "REFUND_REQUEST".data) (some ["refund".data])
    (some "en".data) ⟨SelectedIndex.null, "none fits".data⟩ "p".data "f".data
    (by decide) rfl).1

/-- Concrete instance of the parse-failure default of the analyzer. -/
theorem analyzeEmail_parse_failure_witness :
    analyzeEmail (fun _ => none) "oops not json".data = defaultAnalysis :=
  (analyzeEmail_parse_failure_default (fun _ => none) "oops not json".data
    rfl).1

/-- Concrete instance of the selection fallback: the refund template is the
single candidate and the oracle round trip fails. -/
theorem selectTemplate_parse_failure_witness :
    selectTemplateWithReasoning [refundTemplate] refundEmail "退款相关".data
        .failure =
      some ⟨refundTemplate, refundTemplate.scenario, 3, fallbackReasoning⟩ :=
  selectTemplate_parse_failure [refundTemplate] refundEmail "退款相关".data
    ⟨refundTemplate, 3, ["refund".data]⟩ [] (by decide)

/-- Concrete instance of the double keyword bonus on the scenario 2
fixture. -/
theorem refund_token_and_substring_score_witness :
    3 ≤ scoreOf refundTemplate refundEmail :=
  (refund_token_and_substring_score refundTemplate refundEmail (by decide)
    (by decide) (by decide)).2.2

/-- Concrete instance of a zero score with no overlap at all. -/
theorem scoreOf_zero_witness : scoreOf unrelatedTemplate plainEmail = 0 :=
  (scoreOf_nonneg_and_zero unrelatedTemplate plainEmail).2 (by decide)
    (by decide)

/-- Concrete instance of the exact category match taking precedence. -/
theorem getCandidates_exact_category_witness :
    getCandidates [refundTemplate, unrelatedTemplate] "退款相关".data =
      [refundTemplate, unrelatedTemplate].filter
        (fun u => decide (u.category = "退款相关".data)) :=
  getCandidates_exact_category [refundTemplate, unrelatedTemplate]
    "退款相关".data refundTemplate (by decide) rfl

/-- Concrete instance of the unscoped whole-corpus fallback. -/
theorem getCandidates_unscoped_fallback_witness :
    getCandidates [offCategoryTemplate] "ZZZ".data = [offCategoryTemplate] :=
  (getCandidates_unscoped_fallback [offCategoryTemplate] "ZZZ".data
    (by decide) (by decide)).1

/-- Concrete instance of an absent selectedIndex resolving null. -/
theorem selectTemplate_invalid_index_witness :
    selectTemplateWithReasoning [refundTemplate] refundEmail "退款相关".data
        (.parsed ⟨SelectedIndex.missing, "r".data⟩) = none :=
  (selectTemplate_invalid_index [refundTemplate] refundEmail "退款相关".data
    ⟨SelectedIndex.missing, "r".data⟩ (Or.inl rfl)).1

end ColCustomer
